import Mathlib

/-!
Shallow embedding of the collaboration subsystem of the EtherX Excel
application (`src/utils/collaborationSystem.ts`, plus the join entry
point in the application shell `App.tsx`).

Modelling conventions:
* `localStorage` is a string-keyed store.  The module uses four disjoint
  key namespaces (`collaboration_links_<linkId>`,
  `active_collaborators_<spreadsheetId>`, `collaboration_access_<email>`,
  `owner_links_<email>`); none of the prefixes is a prefix of another, so
  the store is modelled as one typed map per namespace.  JSON
  serialisation (`JSON.stringify` / `JSON.parse` of the typed records) is
  the identity round-trip in the model.
* Timestamps (`Date.now()`, `new Date().toISOString()`,
  `new Date(x).getTime()`) are modelled as natural numbers (milliseconds).
  Each operation takes the current clock reading `now` as an explicit
  argument.  JavaScript computes `now - lastActive` as a possibly negative
  number and compares it with the window; with `Nat` truncated
  subtraction a future `lastActive` yields `0`, which compares the same
  way, so the `Bool` produced is identical.
* `Math.random`-based id generation is modelled by passing the freshly
  generated `linkId` as an argument.
* The notification subsystem (`notificationSystem.ts`) is not part of the
  sources; per the specification it is an external fire-and-forget
  `NotificationSink`.  Dispatched events are recorded in an event list so
  that "a notification was / was not dispatched" is observable.
-/

/-- `CollaborationLink` record (collaborationSystem.ts lines 3-10).
`createdAt`/`expiresAt` ISO strings are modelled as millisecond clock
values. -/
structure CollaborationLink where
  linkId : String
  spreadsheetId : String
  spreadsheetTitle : String
  ownerEmail : String
  createdAt : Nat
  expiresAt : Option Nat := none
deriving Repr, DecidableEq

/-- `ActiveCollaborator` record (collaborationSystem.ts lines 12-18). -/
structure ActiveCollaborator where
  email : String
  name : String
  joinedAt : Nat
  lastActive : Nat
  isActive : Bool
deriving Repr, DecidableEq

/-- Modelled from the spec: the external `NotificationSink` capability
(`dispatch(recipientEmail, eventKind, relatedId?, message)`), consumed by
`notifyOwnerOfNewCollaborator` via `trackActivity`; `notificationSystem.ts`
is not among the sources. -/
structure SinkEvent where
  recipient : String
  eventKind : String
  relatedId : Option String
  message : String
deriving Repr, DecidableEq

/-- The `localStorage` state visible to the collaboration module, one
typed map per key namespace, plus the stream of dispatched sink events.
`none` models an absent key. -/
@[ext]
structure Store where
  links : String → Option CollaborationLink
  collaborators : String → Option (List ActiveCollaborator)
  userAccess : String → Option (List String)
  ownerLinks : String → Option (List String)
  events : List SinkEvent

/-- The staleness window: `5 * 60 * 1000` milliseconds
(collaborationSystem.ts line 147). -/
def fiveMinutes : Nat := 5 * 60 * 1000

/-- `getCollaborationLink` (lines 65-68): plain keyed lookup, `null` for
an absent key. -/
def getCollaborationLink (s : Store) (linkId : String) :
    Option CollaborationLink :=
  s.links linkId

/-- `getOwnerLinks` (lines 73-76): the owner's link-id list, `[]` when the
key is absent. -/
def getOwnerLinks (s : Store) (ownerEmail : String) : List String :=
  (s.ownerLinks ownerEmail).getD []

/-- `getUserCollaborations` (lines 195-198): the user's accessed-document
list, `[]` when the key is absent. -/
def getUserCollaborations (s : Store) (userEmail : String) : List String :=
  (s.userAccess userEmail).getD []

/-- The per-entry liveness recomputation done inside
`getActiveCollaborators` (lines 149-152): spread the record and derive
`isActive` from `now - lastActive < fiveMinutes`. -/
def refreshActive (now : Nat) (c : ActiveCollaborator) : ActiveCollaborator :=
  { c with isActive := decide (now - c.lastActive < fiveMinutes) }

/-- `getActiveCollaborators` (lines 139-153): read the roster blob for the
spreadsheet (empty when absent) and recompute every entry's `isActive`
from the clock.  The source performs no store write here; accordingly the
model returns only the list. -/
def getActiveCollaborators (s : Store) (now : Nat) (spreadsheetId : String) :
    List ActiveCollaborator :=
  match s.collaborators spreadsheetId with
  | none => []
  | some collaborators => collaborators.map (refreshActive now)

/-- `createCollaborationLink` (lines 34-60): build the link record (no
`expiresAt` is ever set by this path), store it under its `linkId`, then
append the `linkId` to the owner's index.  The fresh `linkId` from
`generateLinkId` is passed in explicitly. -/
def createCollaborationLink (s : Store) (now : Nat) (linkId : String)
    (spreadsheetId spreadsheetTitle ownerEmail : String) :
    Store × CollaborationLink :=
  let link : CollaborationLink :=
    { linkId := linkId, spreadsheetId := spreadsheetId,
      spreadsheetTitle := spreadsheetTitle, ownerEmail := ownerEmail,
      createdAt := now, expiresAt := none }
  let s1 : Store :=
    { s with links := fun k => if k = linkId then some link else s.links k }
  let owned := getOwnerLinks s1 ownerEmail
  let s2 : Store :=
    { s1 with ownerLinks := fun k =>
        if k = ownerEmail then some (owned ++ [linkId]) else s1.ownerLinks k }
  (s2, link)

/-- The `findIndex` / replace-or-`push` step of `addCollaborator`
(lines 100-112): the first entry whose `email` matches is replaced by a
spread that refreshes `lastActive` and forces `isActive`; when no entry
matches, the freshly built collaborator record is appended. -/
def upsertCollaborator (now : Nat) (userEmail userName : String) :
    List ActiveCollaborator → List ActiveCollaborator
  | [] => [{ email := userEmail, name := userName, joinedAt := now,
             lastActive := now, isActive := true }]
  | c :: cs =>
    if c.email = userEmail then
      { c with lastActive := now, isActive := true } :: cs
    else
      c :: upsertCollaborator now userEmail userName cs

/-- `notifyOwnerOfNewCollaborator` (lines 203-215), dispatching
`trackActivity(ownerEmail, 'collaboration_joined', undefined, msg)` to the
sink. -/
def notifyOwnerOfNewCollaborator (s : Store)
    (ownerEmail collaboratorName spreadsheetTitle : String) : Store :=
  { s with events := s.events ++
      [{ recipient := ownerEmail, eventKind := "collaboration_joined",
         relatedId := none,
         message := collaboratorName ++ " joined \"" ++ spreadsheetTitle ++ "\"" }] }

/-- `addCollaborator` (lines 81-134): resolve the link (returning `false`
with no store change when absent); read the current roster through
`getActiveCollaborators`; update the first matching entry or append a new
one; write the roster blob back; append the spreadsheet to the joining
user's access list unless already present; notify the owner; return
`true`. -/
def addCollaborator (s : Store) (now : Nat)
    (linkId userEmail userName : String) : Store × Bool :=
  match getCollaborationLink s linkId with
  | none => (s, false)
  | some link =>
    let collaborators := getActiveCollaborators s now link.spreadsheetId
    let updated := upsertCollaborator now userEmail userName collaborators
    let s1 : Store :=
      { s with collaborators := fun k =>
          if k = link.spreadsheetId then some updated else s.collaborators k }
    let access := getUserCollaborations s1 userEmail
    let s2 : Store :=
      if link.spreadsheetId ∈ access then s1
      else
        { s1 with userAccess := fun k =>
            if k = userEmail then some (access ++ [link.spreadsheetId])
            else s1.userAccess k }
    let s3 := notifyOwnerOfNewCollaborator s2 link.ownerEmail userName
      link.spreadsheetTitle
    (s3, true)

/-- `updateCollaboratorActivity` (lines 158-174): `find` the first entry
with the given email, refresh its `lastActive`/`isActive` in place and
write the roster back; when no entry matches, no write happens at all. -/
def touchFirst (now : Nat) (userEmail : String) :
    List ActiveCollaborator → List ActiveCollaborator
  | [] => []
  | c :: cs =>
    if c.email = userEmail then
      { c with lastActive := now, isActive := true } :: cs
    else
      c :: touchFirst now userEmail cs

/-- `updateCollaboratorActivity` (lines 158-174), the heartbeat. -/
def updateCollaboratorActivity (s : Store) (now : Nat)
    (spreadsheetId userEmail : String) : Store :=
  let collaborators := getActiveCollaborators s now spreadsheetId
  if collaborators.any (fun c => c.email = userEmail) then
    { s with collaborators := fun k =>
        if k = spreadsheetId then some (touchFirst now userEmail collaborators)
        else s.collaborators k }
  else s

/-- `removeCollaborator` (lines 179-190): filter the email out of the
roster read through `getActiveCollaborators` and write the remainder
back. -/
def removeCollaborator (s : Store) (now : Nat)
    (spreadsheetId userEmail : String) : Store :=
  let collaborators := getActiveCollaborators s now spreadsheetId
  let filtered := collaborators.filter (fun c => ¬ c.email = userEmail)
  { s with collaborators := fun k =>
      if k = spreadsheetId then some filtered else s.collaborators k }

/-- `isSpreadsheetOwner` (lines 236-245): some link id in the user's owner
index resolves to a link for the given spreadsheet (`link?.spreadsheetId
=== spreadsheetId` is `false` on a dangling id). -/
def isSpreadsheetOwner (s : Store) (spreadsheetId userEmail : String) : Bool :=
  (getOwnerLinks s userEmail).any fun linkId =>
    match getCollaborationLink s linkId with
    | some link => link.spreadsheetId = spreadsheetId
    | none => false

/-- The join entry point as exercised by the application shell (App.tsx
collaboration-link effect): resolve the link; on success run
`addCollaborator` and hand the caller the link's `spreadsheetId` for
loading the shared document; on an unknown link do nothing and signal
absence. -/
def join (s : Store) (now : Nat) (linkId userEmail userName : String) :
    Store × Option String :=
  match getCollaborationLink s linkId with
  | none => (s, none)
  | some link => ((addCollaborator s now linkId userEmail userName).1,
                  some link.spreadsheetId)

/-- `getCollaborationLinkUrl` (lines 220-223); `window.location.origin` is
the `origin` argument. -/
def getCollaborationLinkUrl (origin linkId : String) : String :=
  origin ++ "?collab=" ++ linkId

/-- The characters of `window.location.search` for a fragment-free URL:
everything from the first literal question mark on, empty when there is
none. -/
def dropUntilQ : List Char → List Char
  | [] => []
  | c :: cs => if c = '?' then c :: cs else dropUntilQ cs

/-- Splitting a query string on a separator character, as
`URLSearchParams` splits on ampersands. -/
def splitOnChar (sep : Char) : List Char → List (List Char)
  | [] => [[]]
  | c :: cs =>
    if c = sep then [] :: splitOnChar sep cs
    else
      match splitOnChar sep cs with
      | [] => [[c]]
      | g :: gs => (c :: g) :: gs

/-- Splitting one `key=value` segment at its first equals sign; a segment
with no equals sign has the empty value, as in `URLSearchParams`. -/
def breakAtEq : List Char → List Char × List Char
  | [] => ([], [])
  | c :: cs =>
    if c = '=' then ([], cs)
    else
      let kv := breakAtEq cs
      (c :: kv.1, kv.2)

/-- One hexadecimal digit of a percent escape. -/
def hexVal (c : Char) : Option Nat :=
  if '0' ≤ c ∧ c ≤ '9' then some (c.toNat - '0'.toNat)
  else if 'a' ≤ c ∧ c ≤ 'f' then some (c.toNat - 'a'.toNat + 10)
  else if 'A' ≤ c ∧ c ≤ 'F' then some (c.toNat - 'A'.toNat + 10)
  else none

/-- Percent-decoding of a query component, fuelled so the recursion is
structural: every step consumes at least one character, so a fuel equal to
the input length always suffices.  A valid `%HH` escape becomes its byte;
a malformed `%` is kept literally and scanning resumes right after it, as
`URLSearchParams` tolerates. -/
def percentDecodeAux : Nat → List Char → List Char
  | 0, l => l
  | _ + 1, [] => []
  | fuel + 1, c :: cs =>
    if c = '%' then
      match cs with
      | a :: b :: rest =>
        match hexVal a, hexVal b with
        | some ha, some hb =>
          Char.ofNat (16 * ha + hb) :: percentDecodeAux fuel rest
        | _, _ => '%' :: percentDecodeAux fuel cs
      | _ => '%' :: percentDecodeAux fuel cs
    else c :: percentDecodeAux fuel cs

/-- Percent-decoding of a query component. -/
def percentDecode (l : List Char) : List Char := percentDecodeAux l.length l

/-- `application/x-www-form-urlencoded` component decoding: plus signs
become spaces, then percent escapes are decoded. -/
def formDecode (l : List Char) : List Char :=
  percentDecode (l.map fun c => if c = '+' then ' ' else c)

/-- Stripping the single leading question mark of a search string, as
`URLSearchParams` does. -/
def stripQ : List Char → List Char
  | '?' :: rest => rest
  | l => l

/-- `new URLSearchParams(search).get(key)` for a search string: strip the
leading question mark, split on ampersands, drop empty segments, split
each at its first equals sign, decode, and return the first value whose
decoded key matches. -/
def urlSearchParamsGet (search key : String) : Option String :=
  let q := stripQ search.toList
  let pairs := (splitOnChar '&' q).filterMap fun seg =>
    if seg = [] then none else some (breakAtEq seg)
  ((pairs.find? fun p => formDecode p.1 = key.toList).map
    fun p => String.mk (formDecode p.2))

/-- `parseCollaborationLink` (lines 228-231) applied to a full
fragment-free URL: extract `window.location.search` and read the `collab`
parameter through `URLSearchParams`. -/
def parseCollaborationLink (url : String) : Option String :=
  urlSearchParamsGet (String.mk (dropUntilQ url.toList)) "collab"

/-! ### Basic lemmas about the liveness recomputation -/

@[simp]
theorem refreshActive_email (now : Nat) (c : ActiveCollaborator) :
    (refreshActive now c).email = c.email := rfl

@[simp]
theorem refreshActive_name (now : Nat) (c : ActiveCollaborator) :
    (refreshActive now c).name = c.name := rfl

@[simp]
theorem refreshActive_joinedAt (now : Nat) (c : ActiveCollaborator) :
    (refreshActive now c).joinedAt = c.joinedAt := rfl

@[simp]
theorem refreshActive_lastActive (now : Nat) (c : ActiveCollaborator) :
    (refreshActive now c).lastActive = c.lastActive := rfl

theorem refreshActive_isActive (now : Nat) (c : ActiveCollaborator) :
    (refreshActive now c).isActive = decide (now - c.lastActive < fiveMinutes) := rfl

theorem refreshActive_idem (now : Nat) (c : ActiveCollaborator) :
    refreshActive now (refreshActive now c) = refreshActive now c := rfl

theorem getActiveCollaborators_eq (s : Store) (now : Nat) (D : String) :
    getActiveCollaborators s now D =
      ((s.collaborators D).getD []).map (refreshActive now) := by
  cases h : s.collaborators D <;> simp [getActiveCollaborators, h]

theorem filter_email_map_refreshActive (now : Nat) (E : String)
    (l : List ActiveCollaborator) :
    (l.map (refreshActive now)).filter (fun c => c.email == E) =
      (l.filter (fun c => c.email == E)).map (refreshActive now) := by
  induction l with
  | nil => rfl
  | cons c cs ih =>
    by_cases hc : c.email = E <;> simp [List.filter_cons, hc, ih]

theorem countP_email_map_refreshActive (now : Nat) (E : String)
    (l : List ActiveCollaborator) :
    (l.map (refreshActive now)).countP (fun c => c.email == E) =
      l.countP (fun c => c.email == E) := by
  induction l with
  | nil => rfl
  | cons c cs ih => simp [List.countP_cons, ih]

/-! ### Lemmas about the upsert step of `addCollaborator` -/

theorem upsertCollaborator_filter_of_none (now : Nat) (E N : String)
    (l : List ActiveCollaborator)
    (h : l.filter (fun c => c.email == E) = []) :
    (upsertCollaborator now E N l).filter (fun c => c.email == E) =
      [{ email := E, name := N, joinedAt := now, lastActive := now,
         isActive := true }] := by
  induction l with
  | nil => simp [upsertCollaborator]
  | cons c cs ih =>
    by_cases hc : c.email = E
    · simp [List.filter_cons, hc] at h
    · simp only [List.filter_cons, beq_iff_eq, hc] at h
      simp only [upsertCollaborator, if_neg hc, List.filter_cons, beq_iff_eq,
        hc, if_false]
      simpa using ih (by simpa using h)

theorem upsertCollaborator_filter_of_one (now : Nat) (E N : String)
    (l : List ActiveCollaborator) (c0 : ActiveCollaborator)
    (h : l.filter (fun c => c.email == E) = [c0]) :
    (upsertCollaborator now E N l).filter (fun c => c.email == E) =
      [{ c0 with lastActive := now, isActive := true }] := by
  induction l with
  | nil => simp at h
  | cons c cs ih =>
    by_cases hc : c.email = E
    · have h' : c = c0 ∧ cs.filter (fun c => c.email == E) = [] := by
        simpa [List.filter_cons, hc] using h
      obtain ⟨rfl, hcs⟩ := h'
      simp [upsertCollaborator, hc, List.filter_cons, hcs]
    · simp only [List.filter_cons, beq_iff_eq, hc] at h
      simp only [upsertCollaborator, if_neg hc, List.filter_cons, beq_iff_eq,
        hc, if_false]
      simpa using ih (by simpa using h)

theorem upsertCollaborator_countP_ne (now : Nat) (E E' N : String)
    (hne : E ≠ E') (l : List ActiveCollaborator) :
    (upsertCollaborator now E' N l).countP (fun c => c.email == E) =
      l.countP (fun c => c.email == E) := by
  induction l with
  | nil => simp [upsertCollaborator, List.countP_cons, Ne.symm hne]
  | cons c cs ih =>
    by_cases hc : c.email = E'
    · simp [upsertCollaborator, hc, List.countP_cons]
    · simp [upsertCollaborator, hc, List.countP_cons, ih]

theorem upsertCollaborator_exists (now : Nat) (E N : String)
    (l : List ActiveCollaborator) :
    ∃ c ∈ upsertCollaborator now E N l,
      c.email = E ∧ c.lastActive = now ∧ c.isActive = true := by
  induction l with
  | nil => exact ⟨_, List.mem_singleton_self _, rfl, rfl, rfl⟩
  | cons c cs ih =>
    by_cases hc : c.email = E
    · refine ⟨{ c with lastActive := now, isActive := true }, ?_, hc, rfl, rfl⟩
      simp [upsertCollaborator, hc]
    · obtain ⟨c', hmem, hprops⟩ := ih
      exact ⟨c', by simp [upsertCollaborator, hc, hmem], hprops⟩

/-! ### Lemmas about `touchFirst` -/

theorem touchFirst_countP (now : Nat) (E E' : String)
    (l : List ActiveCollaborator) :
    (touchFirst now E' l).countP (fun c => c.email == E) =
      l.countP (fun c => c.email == E) := by
  induction l with
  | nil => rfl
  | cons c cs ih =>
    by_cases hc : c.email = E'
    · simp [touchFirst, hc, List.countP_cons]
    · simp [touchFirst, hc, List.countP_cons, ih]

/-! ### Field-level description of `addCollaborator` -/

theorem addCollaborator_of_none (s : Store) (now : Nat) (lid E N : String)
    (h : getCollaborationLink s lid = none) :
    addCollaborator s now lid E N = (s, false) := by
  simp [addCollaborator, h]

theorem addCollaborator_snd (s : Store) (now : Nat) (lid E N : String)
    (link : CollaborationLink) (h : getCollaborationLink s lid = some link) :
    (addCollaborator s now lid E N).2 = true := by
  simp only [addCollaborator, h]

theorem addCollaborator_links (s : Store) (now : Nat) (lid E N : String)
    (link : CollaborationLink) (h : getCollaborationLink s lid = some link) :
    ((addCollaborator s now lid E N).1).links = s.links := by
  simp only [addCollaborator, h]
  split <;> rfl

theorem addCollaborator_ownerLinks (s : Store) (now : Nat) (lid E N : String)
    (link : CollaborationLink) (h : getCollaborationLink s lid = some link) :
    ((addCollaborator s now lid E N).1).ownerLinks = s.ownerLinks := by
  simp only [addCollaborator, h]
  split <;> rfl

theorem addCollaborator_collaborators (s : Store) (now : Nat)
    (lid E N : String) (link : CollaborationLink)
    (h : getCollaborationLink s lid = some link) :
    ((addCollaborator s now lid E N).1).collaborators = fun k =>
      if k = link.spreadsheetId then
        some (upsertCollaborator now E N
          (getActiveCollaborators s now link.spreadsheetId))
      else s.collaborators k := by
  simp only [addCollaborator, h]
  split <;> rfl

theorem addCollaborator_userAccess_of_mem (s : Store) (now : Nat)
    (lid E N : String) (link : CollaborationLink)
    (h : getCollaborationLink s lid = some link)
    (hm : link.spreadsheetId ∈ getUserCollaborations s E) :
    ((addCollaborator s now lid E N).1).userAccess = s.userAccess := by
  simp only [addCollaborator, h]
  split
  · rfl
  · next hn => exact absurd hm hn

theorem addCollaborator_userAccess_of_not_mem (s : Store) (now : Nat)
    (lid E N : String) (link : CollaborationLink)
    (h : getCollaborationLink s lid = some link)
    (hm : link.spreadsheetId ∉ getUserCollaborations s E) :
    ((addCollaborator s now lid E N).1).userAccess = fun k =>
      if k = E then
        some (getUserCollaborations s E ++ [link.spreadsheetId])
      else s.userAccess k := by
  simp only [addCollaborator, h]
  split
  · next hp => exact absurd hp hm
  · rfl

theorem addCollaborator_events (s : Store) (now : Nat) (lid E N : String)
    (link : CollaborationLink) (h : getCollaborationLink s lid = some link) :
    ((addCollaborator s now lid E N).1).events = s.events ++
      [{ recipient := link.ownerEmail, eventKind := "collaboration_joined",
         relatedId := none,
         message := N ++ " joined \"" ++ link.spreadsheetTitle ++ "\"" }] := by
  simp only [addCollaborator, h]
  split <;> rfl

theorem addCollaborator_stored_roster (s : Store) (now : Nat)
    (lid E N : String) (link : CollaborationLink)
    (h : getCollaborationLink s lid = some link) :
    ((addCollaborator s now lid E N).1).collaborators link.spreadsheetId =
      some (upsertCollaborator now E N
        (((s.collaborators link.spreadsheetId).getD []).map
          (refreshActive now))) := by
  rw [addCollaborator_collaborators s now lid E N link h]
  simp [getActiveCollaborators_eq]

/-! ### The roster entry of the joining user, after a join -/

theorem filter_stored_after_add_of_none (s : Store) (now : Nat)
    (lid E N : String) (link : CollaborationLink)
    (h : getCollaborationLink s lid = some link)
    (hl0 : ((s.collaborators link.spreadsheetId).getD []).filter
      (fun c => c.email == E) = []) :
    ((((addCollaborator s now lid E N).1).collaborators
        link.spreadsheetId).getD []).filter (fun c => c.email == E) =
      [{ email := E, name := N, joinedAt := now, lastActive := now,
         isActive := true }] := by
  rw [addCollaborator_stored_roster s now lid E N link h]
  rw [Option.getD_some]
  apply upsertCollaborator_filter_of_none
  rw [filter_email_map_refreshActive, hl0]
  rfl

theorem filter_stored_after_add_of_one (s : Store) (now : Nat)
    (lid E N : String) (link : CollaborationLink) (c0 : ActiveCollaborator)
    (h : getCollaborationLink s lid = some link)
    (hl0 : ((s.collaborators link.spreadsheetId).getD []).filter
      (fun c => c.email == E) = [c0]) :
    ((((addCollaborator s now lid E N).1).collaborators
        link.spreadsheetId).getD []).filter (fun c => c.email == E) =
      [{ c0 with lastActive := now, isActive := true }] := by
  rw [addCollaborator_stored_roster s now lid E N link h]
  rw [Option.getD_some]
  have := upsertCollaborator_filter_of_one now E N
    (((s.collaborators link.spreadsheetId).getD []).map (refreshActive now))
    (refreshActive now c0) ?_
  · rw [this]
    simp
  · rw [filter_email_map_refreshActive, hl0]
    rfl

theorem filter_email_cases (l : List ActiveCollaborator) (E : String)
    (h : l.countP (fun c => c.email == E) ≤ 1) :
    l.filter (fun c => c.email == E) = [] ∨
      ∃ c0, l.filter (fun c => c.email == E) = [c0] := by
  rw [List.countP_eq_length_filter] at h
  match hf : l.filter (fun c => c.email == E) with
  | [] => exact Or.inl hf
  | [c0] => exact Or.inr ⟨c0, hf⟩
  | c0 :: c1 :: t => rw [hf] at h; simp at h

theorem upsertCollaborator_countP_self (now : Nat) (E N : String)
    (l : List ActiveCollaborator)
    (h : l.countP (fun c => c.email == E) ≤ 1) :
    (upsertCollaborator now E N l).countP (fun c => c.email == E) = 1 := by
  rw [List.countP_eq_length_filter]
  rcases filter_email_cases l E h with hf | ⟨c0, hf⟩
  · rw [upsertCollaborator_filter_of_none now E N l hf]; rfl
  · rw [upsertCollaborator_filter_of_one now E N l c0 hf]; rfl

theorem roster_filter_after_add (s : Store) (now : Nat) (lid E N : String)
    (link : CollaborationLink)
    (h : getCollaborationLink s lid = some link)
    (hcount : ((s.collaborators link.spreadsheetId).getD []).countP
      (fun c => c.email == E) ≤ 1) :
    ∃ u, (getActiveCollaborators (addCollaborator s now lid E N).1 now
        link.spreadsheetId).filter (fun c => c.email == E) = [u] ∧
      u.email = E ∧ u.lastActive = now ∧ u.isActive = true := by
  rw [getActiveCollaborators_eq, filter_email_map_refreshActive]
  rcases filter_email_cases _ E hcount with hf | ⟨c0, hf⟩
  · rw [filter_stored_after_add_of_none s now lid E N link h hf]
    refine ⟨_, rfl, rfl, rfl, ?_⟩
    simp [refreshActive, fiveMinutes]
  · have hmem : c0 ∈ ((s.collaborators link.spreadsheetId).getD []).filter
        (fun c => c.email == E) := by
      rw [hf]; exact List.mem_singleton_self _
    have hc0 : c0.email = E := by simpa using (List.mem_filter.mp hmem).2
    rw [filter_stored_after_add_of_one s now lid E N link c0 h hf]
    exact ⟨_, rfl, hc0, rfl, by simp [refreshActive, fiveMinutes]⟩

/-! ### The operation alphabet and the one-record-per-email invariant -/

/-- The store-mutating operations the module exposes, each tagged with the
clock reading at which it runs. -/
inductive CollabOp where
  | createLink (now : Nat) (linkId spreadsheetId title ownerEmail : String)
  | add (now : Nat) (linkId userEmail userName : String)
  | heartbeat (now : Nat) (spreadsheetId userEmail : String)
  | removeOp (now : Nat) (spreadsheetId userEmail : String)

/-- Running one operation against the store. -/
def applyOp (s : Store) : CollabOp → Store
  | .createLink now lid sid title owner =>
      (createCollaborationLink s now lid sid title owner).1
  | .add now lid e n => (addCollaborator s now lid e n).1
  | .heartbeat now sid e => updateCollaboratorActivity s now sid e
  | .removeOp now sid e => removeCollaborator s now sid e

/-- At most one stored roster record for the email in the document. -/
def rosterOnce (s : Store) (D E : String) : Prop :=
  ((s.collaborators D).getD []).countP (fun c => c.email == E) ≤ 1

theorem addCollaborator_collaborators_apply (s : Store) (now : Nat)
    (lid E N : String) (link : CollaborationLink)
    (h : getCollaborationLink s lid = some link) (k : String) :
    ((addCollaborator s now lid E N).1).collaborators k =
      if k = link.spreadsheetId then
        some (upsertCollaborator now E N
          (getActiveCollaborators s now link.spreadsheetId))
      else s.collaborators k := by
  rw [addCollaborator_collaborators s now lid E N link h]

theorem addCollaborator_rosterOnce (s : Store) (now : Nat)
    (lid E' N D E : String) (h : rosterOnce s D E) :
    rosterOnce (addCollaborator s now lid E' N).1 D E := by
  cases hl : getCollaborationLink s lid with
  | none => rw [addCollaborator_of_none s now lid E' N hl]; exact h
  | some link =>
    unfold rosterOnce at h ⊢
    rw [addCollaborator_collaborators_apply s now lid E' N link hl D]
    by_cases hD : D = link.spreadsheetId
    · rw [if_pos hD, Option.getD_some]
      subst hD
      rw [getActiveCollaborators_eq]
      by_cases hE : E = E'
      · subst hE
        rw [upsertCollaborator_countP_self now E N _
          (by rw [countP_email_map_refreshActive]; exact h)]
      · rw [upsertCollaborator_countP_ne now E E' N hE,
          countP_email_map_refreshActive]
        exact h
    · rw [if_neg hD]
      exact h

theorem touchFirst_countP_getActive (s : Store) (now : Nat)
    (sid E E' : String) :
    (touchFirst now E' (getActiveCollaborators s now sid)).countP
        (fun c => c.email == E) =
      ((s.collaborators sid).getD []).countP (fun c => c.email == E) := by
  rw [touchFirst_countP, getActiveCollaborators_eq,
    countP_email_map_refreshActive]

theorem updateCollaboratorActivity_rosterOnce (s : Store) (now : Nat)
    (sid E' D E : String) (h : rosterOnce s D E) :
    rosterOnce (updateCollaboratorActivity s now sid E') D E := by
  unfold rosterOnce at h ⊢
  unfold updateCollaboratorActivity
  dsimp only
  split
  · dsimp only
    by_cases hD : D = sid
    · rw [if_pos hD, Option.getD_some]
      subst hD
      rw [touchFirst_countP_getActive]
      exact h
    · rw [if_neg hD]
      exact h
  · exact h

theorem removeCollaborator_rosterOnce (s : Store) (now : Nat)
    (sid E' D E : String) (h : rosterOnce s D E) :
    rosterOnce (removeCollaborator s now sid E') D E := by
  unfold rosterOnce at h ⊢
  unfold removeCollaborator
  dsimp only
  by_cases hD : D = sid
  · rw [if_pos hD, Option.getD_some]
    subst hD
    refine le_trans ?_ h
    have hcomm : (getActiveCollaborators s now D).countP
        (fun c => c.email == E) =
        ((s.collaborators D).getD []).countP (fun c => c.email == E) := by
      rw [getActiveCollaborators_eq, countP_email_map_refreshActive]
    rw [← hcomm, List.countP_filter]
    refine List.countP_mono_left fun c _ hc => ?_
    simp only [Bool.and_eq_true] at hc
    exact hc.1
  · rw [if_neg hD]
    exact h

theorem applyOp_rosterOnce (s : Store) (op : CollabOp) (D E : String)
    (h : rosterOnce s D E) : rosterOnce (applyOp s op) D E := by
  cases op with
  | createLink now lid sid title owner => exact h
  | add now lid e n => exact addCollaborator_rosterOnce s now lid e n D E h
  | heartbeat now sid e =>
    exact updateCollaboratorActivity_rosterOnce s now sid e D E h
  | removeOp now sid e =>
    exact removeCollaborator_rosterOnce s now sid e D E h

theorem foldl_rosterOnce (ops : List CollabOp) (s : Store) (D E : String)
    (h : rosterOnce s D E) : rosterOnce (ops.foldl applyOp s) D E := by
  induction ops generalizing s with
  | nil => exact h
  | cons op rest ih => exact ih _ (applyOp_rosterOnce s op D E h)

/-! ### Lemmas about `removeCollaborator` -/

theorem removeCollaborator_collaborators_apply (s : Store) (now : Nat)
    (sid E k : String) :
    (removeCollaborator s now sid E).collaborators k =
      if k = sid then
        some ((getActiveCollaborators s now sid).filter
          (fun c => ¬ c.email = E))
      else s.collaborators k := rfl

theorem refreshActive_fixed_of_mem_map (now : Nat)
    (l : List ActiveCollaborator) (c : ActiveCollaborator)
    (hc : c ∈ l.map (refreshActive now)) : refreshActive now c = c := by
  obtain ⟨c', _, rfl⟩ := List.mem_map.mp hc
  exact refreshActive_idem now c'

theorem removeCollaborator_no_email (s : Store) (now now' : Nat)
    (D E : String) (c : ActiveCollaborator)
    (hc : c ∈ getActiveCollaborators (removeCollaborator s now D E) now' D) :
    ¬ c.email = E := by
  rw [getActiveCollaborators_eq, removeCollaborator_collaborators_apply,
    if_pos rfl, Option.getD_some] at hc
  obtain ⟨c', hc', rfl⟩ := List.mem_map.mp hc
  have hp := (List.mem_filter.mp hc').2
  rw [refreshActive_email]
  exact of_decide_eq_true hp

theorem map_refreshActive_filtered (s : Store) (now : Nat) (sid E : String) :
    ((getActiveCollaborators s now sid).filter
        (fun c => ¬ c.email = E)).map (refreshActive now) =
      (getActiveCollaborators s now sid).filter (fun c => ¬ c.email = E) := by
  have hfix : ∀ c ∈ (getActiveCollaborators s now sid).filter
      (fun c => ¬ c.email = E), refreshActive now c = c := by
    intro c hc
    have hmem : c ∈ getActiveCollaborators s now sid :=
      (List.mem_filter.mp hc).1
    rw [getActiveCollaborators_eq] at hmem
    exact refreshActive_fixed_of_mem_map now _ c hmem
  calc ((getActiveCollaborators s now sid).filter
        (fun c => ¬ c.email = E)).map (refreshActive now)
      = ((getActiveCollaborators s now sid).filter
        (fun c => ¬ c.email = E)).map id := List.map_congr_left hfix
    _ = _ := List.map_id _

theorem removeCollaborator_links (s : Store) (now : Nat) (sid E : String) :
    (removeCollaborator s now sid E).links = s.links := rfl

theorem removeCollaborator_userAccess (s : Store) (now : Nat)
    (sid E : String) :
    (removeCollaborator s now sid E).userAccess = s.userAccess := rfl

theorem removeCollaborator_ownerLinks (s : Store) (now : Nat)
    (sid E : String) :
    (removeCollaborator s now sid E).ownerLinks = s.ownerLinks := rfl

theorem removeCollaborator_events (s : Store) (now : Nat) (sid E : String) :
    (removeCollaborator s now sid E).events = s.events := rfl

theorem removeCollaborator_idem (s : Store) (now : Nat) (D E : String) :
    removeCollaborator (removeCollaborator s now D E) now D E =
      removeCollaborator s now D E := by
  refine Store.ext rfl ?_ rfl rfl rfl
  funext k
  rw [removeCollaborator_collaborators_apply,
    removeCollaborator_collaborators_apply]
  by_cases hk : k = D
  · rw [if_pos hk, if_pos hk]
    congr 1
    rw [getActiveCollaborators_eq, removeCollaborator_collaborators_apply,
      if_pos rfl, Option.getD_some, map_refreshActive_filtered,
      List.filter_filter]
    simp only [Bool.and_self]
  · rw [if_neg hk, if_neg hk]

/-! ### Field-level description of `createCollaborationLink` and `join` -/

theorem createCollaborationLink_links (s : Store) (now : Nat)
    (lid sid title owner : String) :
    ((createCollaborationLink s now lid sid title owner).1).links = fun k =>
      if k = lid then
        some { linkId := lid, spreadsheetId := sid, spreadsheetTitle := title,
               ownerEmail := owner, createdAt := now, expiresAt := none }
      else s.links k := rfl

theorem createCollaborationLink_ownerLinks (s : Store) (now : Nat)
    (lid sid title owner : String) :
    ((createCollaborationLink s now lid sid title owner).1).ownerLinks =
      fun k =>
        if k = owner then some (getOwnerLinks s owner ++ [lid])
        else s.ownerLinks k := rfl

theorem createCollaborationLink_collaborators (s : Store) (now : Nat)
    (lid sid title owner : String) :
    ((createCollaborationLink s now lid sid title owner).1).collaborators =
      s.collaborators := rfl

theorem join_of_none (s : Store) (now : Nat) (lid E N : String)
    (h : getCollaborationLink s lid = none) :
    join s now lid E N = (s, none) := by
  simp [join, h]

theorem join_of_some (s : Store) (now : Nat) (lid E N : String)
    (link : CollaborationLink) (h : getCollaborationLink s lid = some link) :
    join s now lid E N =
      ((addCollaborator s now lid E N).1, some link.spreadsheetId) := by
  simp [join, h]

/-! ### Lemmas about the URL query model -/

theorem dropUntilQ_append_of_no_q (l r : List Char) (h : '?' ∉ l) :
    dropUntilQ (l ++ r) = dropUntilQ r := by
  induction l with
  | nil => rfl
  | cons c cs ih =>
    have hc : c ≠ '?' := fun hc => h (hc ▸ List.mem_cons_self c cs)
    have hcs : '?' ∉ cs := fun hm => h (List.mem_cons_of_mem c hm)
    simp [dropUntilQ, hc, ih hcs]

theorem dropUntilQ_of_no_q (l : List Char) (h : '?' ∉ l) :
    dropUntilQ l = [] := by
  induction l with
  | nil => rfl
  | cons c cs ih =>
    have hc : c ≠ '?' := fun hc => h (hc ▸ List.mem_cons_self c cs)
    have hcs : '?' ∉ cs := fun hm => h (List.mem_cons_of_mem c hm)
    simp [dropUntilQ, hc, ih hcs]

theorem splitOnChar_of_not_mem (sep : Char) (l : List Char) (h : sep ∉ l) :
    splitOnChar sep l = [l] := by
  induction l with
  | nil => rfl
  | cons c cs ih =>
    have hc : c ≠ sep := fun hc => h (hc ▸ List.mem_cons_self c cs)
    have hcs : sep ∉ cs := fun hm => h (List.mem_cons_of_mem c hm)
    simp [splitOnChar, hc, ih hcs]

theorem breakAtEq_cons_ne (c : Char) (cs : List Char) (h : c ≠ '=') :
    breakAtEq (c :: cs) = (c :: (breakAtEq cs).1, (breakAtEq cs).2) := by
  simp [breakAtEq, h]

theorem breakAtEq_cons_eq (cs : List Char) : breakAtEq ('=' :: cs) = ([], cs) := by
  simp [breakAtEq]

theorem breakAtEq_collab (rest : List Char) :
    breakAtEq ('c' :: 'o' :: 'l' :: 'l' :: 'a' :: 'b' :: '=' :: rest) =
      (['c', 'o', 'l', 'l', 'a', 'b'], rest) := by
  rw [breakAtEq_cons_ne _ _ (by decide), breakAtEq_cons_ne _ _ (by decide),
    breakAtEq_cons_ne _ _ (by decide), breakAtEq_cons_ne _ _ (by decide),
    breakAtEq_cons_ne _ _ (by decide), breakAtEq_cons_ne _ _ (by decide),
    breakAtEq_cons_eq]

theorem percentDecodeAux_of_no_pct (n : Nat) (l : List Char)
    (hn : l.length ≤ n) (h : '%' ∉ l) : percentDecodeAux n l = l := by
  induction n generalizing l with
  | zero => rfl
  | succ n ih =>
    cases l with
    | nil => rfl
    | cons c cs =>
      have hc : c ≠ '%' := fun hc => h (hc ▸ List.mem_cons_self c cs)
      have hcs : '%' ∉ cs := fun hm => h (List.mem_cons_of_mem c hm)
      have hlen : cs.length ≤ n := by
        simpa [Nat.succ_le_succ_iff] using hn
      simp [percentDecodeAux, hc, ih cs hlen hcs]

theorem percentDecode_of_no_pct (l : List Char) (h : '%' ∉ l) :
    percentDecode l = l :=
  percentDecodeAux_of_no_pct l.length l le_rfl h

theorem formDecode_of_safe (l : List Char) (hp : '%' ∉ l) (hplus : '+' ∉ l) :
    formDecode l = l := by
  unfold formDecode
  have hmap : l.map (fun c => if c = '+' then ' ' else c) = l := by
    conv_rhs => rw [← List.map_id l]
    apply List.map_congr_left
    intro c hc
    refine if_neg ?_
    intro hceq
    exact hplus (hceq ▸ hc)
  rw [hmap]
  exact percentDecode_of_no_pct l hp

theorem urlSearchParamsGet_collab (lid : List Char)
    (h1 : '&' ∉ lid) (h2 : '%' ∉ lid) (h3 : '+' ∉ lid) :
    urlSearchParamsGet (String.mk ('?' :: 'c' :: 'o' :: 'l' :: 'l' :: 'a'
      :: 'b' :: '=' :: lid)) "collab" = some (String.mk lid) := by
  have hnm : '&' ∉ ('c' :: 'o' :: 'l' :: 'l' :: 'a' :: 'b' :: '=' :: lid) := by
    intro hm
    simp only [List.mem_cons] at hm
    rcases hm with h | h | h | h | h | h | h | h
    all_goals first
      | exact absurd h (by decide)
      | exact h1 h
  unfold urlSearchParamsGet
  rw [show stripQ (String.mk ('?' :: 'c' :: 'o' :: 'l' :: 'l' :: 'a' :: 'b'
    :: '=' :: lid)).toList = 'c' :: 'o' :: 'l' :: 'l' :: 'a' :: 'b' :: '='
    :: lid from rfl]
  dsimp only
  rw [splitOnChar_of_not_mem '&' _ hnm]
  have hpairs : (([('c' :: 'o' :: 'l' :: 'l' :: 'a' :: 'b' :: '=' :: lid)] :
      List (List Char)).filterMap fun seg =>
        if seg = [] then none else some (breakAtEq seg)) =
      [(['c', 'o', 'l', 'l', 'a', 'b'], lid)] := by
    simp [breakAtEq_collab]
  rw [hpairs]
  have hp : (decide (formDecode ['c', 'o', 'l', 'l', 'a', 'b'] =
      "collab".toList)) = true := by decide
  rw [List.find?_cons, hp]
  simp [formDecode_of_safe lid h2 h3]

theorem parseCollaborationLink_roundTrip (origin linkId : String)
    (ho : '?' ∉ origin.toList) (h1 : '&' ∉ linkId.toList)
    (h2 : '%' ∉ linkId.toList) (h3 : '+' ∉ linkId.toList) :
    parseCollaborationLink (getCollaborationLinkUrl origin linkId) =
      some linkId := by
  unfold parseCollaborationLink getCollaborationLinkUrl
  have hlist : (origin ++ "?collab=" ++ linkId).toList =
      origin.toList ++ ('?' :: 'c' :: 'o' :: 'l' :: 'l' :: 'a' :: 'b' :: '='
        :: linkId.toList) := by
    show (origin.toList ++ "?collab=".toList) ++ linkId.toList = _
    rw [List.append_assoc]
    rfl
  rw [hlist, dropUntilQ_append_of_no_q _ _ ho]
  have hq : dropUntilQ ('?' :: 'c' :: 'o' :: 'l' :: 'l' :: 'a' :: 'b' :: '='
      :: linkId.toList) = '?' :: 'c' :: 'o' :: 'l' :: 'l' :: 'a' :: 'b'
      :: '=' :: linkId.toList := by
    simp [dropUntilQ]
  rw [hq]
  exact urlSearchParamsGet_collab linkId.toList h1 h2 h3

theorem parseCollaborationLink_no_query (url : String)
    (h : '?' ∉ url.toList) : parseCollaborationLink url = none := by
  unfold parseCollaborationLink
  rw [dropUntilQ_of_no_q _ h]
  rfl

/-! ### Characterising `isSpreadsheetOwner` -/

theorem isSpreadsheetOwner_iff (s : Store) (D E : String) :
    isSpreadsheetOwner s D E = true ↔
      ∃ lid ∈ getOwnerLinks s E, ∃ link,
        getCollaborationLink s lid = some link ∧ link.spreadsheetId = D := by
  unfold isSpreadsheetOwner
  rw [List.any_eq_true]
  constructor
  · rintro ⟨lid, hmem, hp⟩
    cases hl : getCollaborationLink s lid with
    | none => rw [hl] at hp; simp at hp
    | some link =>
      rw [hl] at hp
      exact ⟨lid, hmem, link, hl, by simpa using hp⟩
  · rintro ⟨lid, hmem, link, hl, hid⟩
    refine ⟨lid, hmem, ?_⟩
    rw [hl]
    simpa using hid

/-! ### Concrete stores used to instantiate the theorems -/

/-- A store with no keys at all. -/
def emptyStore : Store :=
  { links := fun _ => none, collaborators := fun _ => none,
    userAccess := fun _ => none, ownerLinks := fun _ => none, events := [] }

/-- A live link for document `D1`, owned by `a@x.com`. -/
def demoLink : CollaborationLink :=
  { linkId := "L1", spreadsheetId := "D1", spreadsheetTitle := "Budget2024",
    ownerEmail := "a@x.com", createdAt := 0, expiresAt := none }

/-- A store holding `demoLink` and its owner index, no rosters yet. -/
def demoStore : Store :=
  { links := fun k => if k = "L1" then some demoLink else none,
    collaborators := fun _ => none,
    userAccess := fun _ => none,
    ownerLinks := fun k => if k = "a@x.com" then some ["L1"] else none,
    events := [] }

/-! ### The claims -/

/-- C1: for a document with a collaboration link, a join through that
link succeeds; afterwards the roster read back contains exactly one entry
whose email is the joining user's, that entry is active, and the link's
document identifier is handed to the caller for loading. -/
theorem claim_C1_join_registers_active_entry (s : Store) (now : Nat)
    (lid U name : String) (link : CollaborationLink)
    (hlink : getCollaborationLink s lid = some link)
    (honce : ((s.collaborators link.spreadsheetId).getD []).countP
      (fun c => c.email == U) ≤ 1) :
    (addCollaborator s now lid U name).2 = true ∧
    (join s now lid U name).2 = some link.spreadsheetId ∧
    ∃ u, (getActiveCollaborators (join s now lid U name).1 now
        link.spreadsheetId).filter (fun c => c.email == U) = [u] ∧
      u.email = U ∧ u.isActive = true := by
  refine ⟨addCollaborator_snd s now lid U name link hlink, ?_, ?_⟩
  · rw [join_of_some s now lid U name link hlink]
  · obtain ⟨u, hu, he, _, ha⟩ :=
      roster_filter_after_add s now lid U name link hlink honce
    rw [join_of_some s now lid U name link hlink]
    exact ⟨u, hu, he, ha⟩

theorem claim_C1_witness :
    getCollaborationLink demoStore "L1" = some demoLink ∧
    ((demoStore.collaborators demoLink.spreadsheetId).getD []).countP
      (fun c => c.email == "b@x.com") ≤ 1 ∧
    ((addCollaborator demoStore 5 "L1" "b@x.com" "Bob").2 = true ∧
     (join demoStore 5 "L1" "b@x.com" "Bob").2 =
       some demoLink.spreadsheetId ∧
     ∃ u, (getActiveCollaborators (join demoStore 5 "L1" "b@x.com" "Bob").1
         5 demoLink.spreadsheetId).filter (fun c => c.email == "b@x.com") =
         [u] ∧ u.email = "b@x.com" ∧ u.isActive = true) :=
  ⟨rfl, by decide,
   claim_C1_join_registers_active_entry demoStore 5 "L1" "b@x.com" "Bob"
     demoLink rfl (by decide)⟩

/-- C2: every sequence of collaboration operations preserves "at most one
roster record per (document, email)"; and a second join by the same user
keeps `joinedAt` from the first join while moving `lastActive` to the
second join's clock reading, without duplicating the record. -/
theorem claim_C2_at_most_one_record (s : Store) (D E : String) :
    (∀ ops : List CollabOp, rosterOnce s D E →
      rosterOnce (ops.foldl applyOp s) D E) ∧
    (∀ t1 t2 : Nat, ∀ lid n1 n2 : String, ∀ link : CollaborationLink,
      getCollaborationLink s lid = some link →
      link.spreadsheetId = D →
      ((s.collaborators D).getD []).filter (fun c => c.email == E) = [] →
      ∃ c, ((((addCollaborator ((addCollaborator s t1 lid E n1).1) t2 lid E
          n2).1).collaborators D).getD []).filter (fun c => c.email == E) =
          [c] ∧ c.joinedAt = t1 ∧ c.lastActive = t2) := by
  constructor
  · intro ops h
    exact foldl_rosterOnce ops s D E h
  · intro t1 t2 lid n1 n2 link hlink hD hfil
    subst hD
    have h1 := filter_stored_after_add_of_none s t1 lid E n1 link hlink hfil
    have hlink1 : getCollaborationLink (addCollaborator s t1 lid E n1).1 lid
        = some link := by
      unfold getCollaborationLink at hlink ⊢
      rw [addCollaborator_links s t1 lid E n1 link hlink]
      exact hlink
    have h2 := filter_stored_after_add_of_one
      ((addCollaborator s t1 lid E n1).1) t2 lid E n2 link _ hlink1 h1
    exact ⟨_, h2, rfl, rfl⟩

theorem claim_C2_witness :
    rosterOnce demoStore "D1" "b@x.com" ∧
    rosterOnce (([CollabOp.add 1 "L1" "b@x.com" "Bob",
      CollabOp.heartbeat 2 "D1" "b@x.com",
      CollabOp.removeOp 3 "D1" "b@x.com"]).foldl applyOp demoStore)
      "D1" "b@x.com" ∧
    getCollaborationLink demoStore "L1" = some demoLink ∧
    demoLink.spreadsheetId = "D1" ∧
    ((demoStore.collaborators "D1").getD []).filter
      (fun c => c.email == "b@x.com") = [] ∧
    ∃ c, ((((addCollaborator ((addCollaborator demoStore 1 "L1" "b@x.com"
        "Bob").1) 2 "L1" "b@x.com" "Robert").1).collaborators "D1").getD
        []).filter (fun c => c.email == "b@x.com") = [c] ∧
      c.joinedAt = 1 ∧ c.lastActive = 2 :=
  ⟨by unfold rosterOnce; decide,
   (claim_C2_at_most_one_record demoStore "D1" "b@x.com").1
     [CollabOp.add 1 "L1" "b@x.com" "Bob",
      CollabOp.heartbeat 2 "D1" "b@x.com",
      CollabOp.removeOp 3 "D1" "b@x.com"] (by unfold rosterOnce; decide),
   rfl, rfl, by decide,
   (claim_C2_at_most_one_record demoStore "D1" "b@x.com").2 1 2 "L1" "Bob"
     "Robert" demoLink rfl rfl (by decide)⟩

/-- A store whose `D1` roster holds one entry 5 minutes stale and one
refreshed 4 minutes 59 seconds ago, relative to the clock 300000. -/
def demoRosterStore : Store :=
  { links := fun _ => none,
    collaborators := fun k =>
      if k = "D1" then some
        [{ email := "old@x.com", name := "Old", joinedAt := 0,
           lastActive := 0, isActive := true },
         { email := "new@x.com", name := "New", joinedAt := 0,
           lastActive := 1000, isActive := false }]
      else none,
    userAccess := fun _ => none, ownerLinks := fun _ => none, events := [] }

/-- C3: every entry returned by a roster read carries
`isActive = (now - lastActive < 5 minutes)`, recomputed at that read: an
entry five minutes old or older reads inactive, one refreshed 4 minutes
59 seconds ago reads active.  The read itself (`getActiveCollaborators`)
performs no store write, which the model reflects by typing it as a pure
function of the store. -/
theorem claim_C3_isActive_derived (s : Store) (now : Nat) (D : String) :
    ∀ c ∈ getActiveCollaborators s now D,
      (c.isActive = true ↔ now - c.lastActive < fiveMinutes) ∧
      (fiveMinutes ≤ now - c.lastActive → c.isActive = false) ∧
      (now - c.lastActive = fiveMinutes - 1000 → c.isActive = true) := by
  intro c hc
  rw [getActiveCollaborators_eq] at hc
  obtain ⟨c', _, rfl⟩ := List.mem_map.mp hc
  rw [refreshActive_isActive, refreshActive_lastActive]
  refine ⟨decide_eq_true_iff, ?_, ?_⟩
  · intro h
    exact decide_eq_false (Nat.not_lt.mpr h)
  · intro h
    rw [h]
    decide

theorem claim_C3_witness :
    (⟨"old@x.com", "Old", 0, 0, false⟩ : ActiveCollaborator) ∈
      getActiveCollaborators demoRosterStore 300000 "D1" ∧
    fiveMinutes ≤ 300000 - (0 : Nat) ∧
    (⟨"old@x.com", "Old", 0, 0, false⟩ : ActiveCollaborator).isActive
      = false ∧
    (⟨"new@x.com", "New", 0, 1000, true⟩ : ActiveCollaborator) ∈
      getActiveCollaborators demoRosterStore 300000 "D1" ∧
    300000 - (1000 : Nat) = fiveMinutes - 1000 ∧
    (⟨"new@x.com", "New", 0, 1000, true⟩ : ActiveCollaborator).isActive
      = true :=
  ⟨by decide, by decide,
   (claim_C3_isActive_derived demoRosterStore 300000 "D1" _ (by decide)).2.1
     (by decide),
   by decide, by decide,
   (claim_C3_isActive_derived demoRosterStore 300000 "D1" _ (by decide)).2.2
     (by decide)⟩

/-- C4: an unknown link id resolves to an absent value, and a join with
it returns the failure outcome with the store completely unchanged: no
roster write, no access-index write, and no dispatched sink event. -/
theorem claim_C4_unknown_link (s : Store) (now : Nat) (lid E N : String)
    (h : s.links lid = none) :
    getCollaborationLink s lid = none ∧
    addCollaborator s now lid E N = (s, false) ∧
    join s now lid E N = (s, none) :=
  ⟨h, addCollaborator_of_none s now lid E N h, join_of_none s now lid E N h⟩

theorem claim_C4_witness :
    emptyStore.links "nope" = none ∧
    (getCollaborationLink emptyStore "nope" = none ∧
     addCollaborator emptyStore 7 "nope" "u@x.com" "U" = (emptyStore, false) ∧
     join emptyStore 7 "nope" "u@x.com" "U" = (emptyStore, none)) :=
  ⟨rfl, claim_C4_unknown_link emptyStore 7 "nope" "u@x.com" "U" rfl⟩

/-- A store in which `u@x.com` already collaborates on `D1` under the
display name `Alice`. -/
def demoNameStore : Store :=
  { links := fun k => if k = "L1" then some demoLink else none,
    collaborators := fun k =>
      if k = "D1" then some
        [{ email := "u@x.com", name := "Alice", joinedAt := 10,
           lastActive := 20, isActive := true }]
      else none,
    userAccess := fun _ => none, ownerLinks := fun _ => none, events := [] }

/-- C5 counterexample: `u@x.com` re-joins `D1` under the new display name
`Bob`, yet the stored record still carries the original name `Alice`: the
update branch of `addCollaborator` spreads the old record and only
refreshes `lastActive`/`isActive`, so the name argument is not applied. -/
theorem claim_C5_counterexample :
    (((Store.collaborators
        (addCollaborator demoNameStore 30 "L1" "u@x.com" "Bob").1
        "D1").getD []).map fun c => c.name) = ["Alice"] ∧
    "Alice" ≠ "Bob" := by
  constructor
  · rfl
  · decide

/-- C5 (amended): a later join by an existing collaborator refreshes
`lastActive` and forces `isActive = true` while preserving `joinedAt`,
and it also preserves the previously stored display name: the new name
argument is NOT applied to the existing record. -/
theorem claim_C5_rejoin_preserves_name (s : Store) (now : Nat)
    (lid E N2 : String) (link : CollaborationLink) (c0 : ActiveCollaborator)
    (hlink : getCollaborationLink s lid = some link)
    (hfil : ((s.collaborators link.spreadsheetId).getD []).filter
      (fun c => c.email == E) = [c0]) :
    ∃ c, ((((addCollaborator s now lid E N2).1).collaborators
        link.spreadsheetId).getD []).filter (fun c => c.email == E) = [c] ∧
      c.name = c0.name ∧ c.joinedAt = c0.joinedAt ∧
      c.lastActive = now ∧ c.isActive = true :=
  ⟨_, filter_stored_after_add_of_one s now lid E N2 link c0 hlink hfil,
   rfl, rfl, rfl, rfl⟩

theorem claim_C5_witness :
    getCollaborationLink demoNameStore "L1" = some demoLink ∧
    ((demoNameStore.collaborators demoLink.spreadsheetId).getD []).filter
      (fun c => c.email == "u@x.com") =
      [{ email := "u@x.com", name := "Alice", joinedAt := 10,
         lastActive := 20, isActive := true }] ∧
    (∃ c, ((Store.collaborators
        (addCollaborator demoNameStore 30 "L1" "u@x.com" "Bob").1
        demoLink.spreadsheetId).getD []).filter
        (fun c => c.email == "u@x.com") = [c] ∧
      c.name = "Alice" ∧ c.joinedAt = 10 ∧
      c.lastActive = 30 ∧ c.isActive = true) :=
  ⟨rfl, by decide,
   claim_C5_rejoin_preserves_name demoNameStore 30 "L1" "u@x.com" "Bob"
     demoLink
     { email := "u@x.com", name := "Alice", joinedAt := 10,
       lastActive := 20, isActive := true } rfl (by decide)⟩

/-- A link for `D2` whose `expiresAt` lies at clock reading 100. -/
def expiredLink : CollaborationLink :=
  { linkId := "L2", spreadsheetId := "D2", spreadsheetTitle := "Old",
    ownerEmail := "a@x.com", createdAt := 0, expiresAt := some 100 }

/-- A store holding only the expired link. -/
def demoExpiredStore : Store :=
  { links := fun k => if k = "L2" then some expiredLink else none,
    collaborators := fun _ => none, userAccess := fun _ => none,
    ownerLinks := fun _ => none, events := [] }

/-- C6 counterexample: the link's `expiresAt` is 100, far in the past of
the join at clock reading 1000000, yet the join succeeds and the
collaborator is registered: no read path consults `expiresAt`. -/
theorem claim_C6_counterexample :
    expiredLink.expiresAt = some 100 ∧ (100 : Nat) < 1000000 ∧
    (addCollaborator demoExpiredStore 1000000 "L2" "u@x.com" "U").2 = true ∧
    (((Store.collaborators
        (addCollaborator demoExpiredStore 1000000 "L2" "u@x.com" "U").1
        "D2").getD []).map fun c => c.email) = ["u@x.com"] := by
  refine ⟨rfl, by decide, rfl, rfl⟩

/-- C6 (amended): link expiry is not enforced: a join through a link
whose `expiresAt` lies strictly in the past of the join's clock reading
still succeeds, and the roster read back contains the joining user as an
active collaborator. -/
theorem claim_C6_expired_link_still_joins (s : Store) (now t : Nat)
    (lid E N : String) (link : CollaborationLink)
    (hlink : getCollaborationLink s lid = some link)
    (hexp : link.expiresAt = some t) (hpast : t < now) :
    (addCollaborator s now lid E N).2 = true ∧
    ∃ c ∈ getActiveCollaborators (addCollaborator s now lid E N).1 now
        link.spreadsheetId, c.email = E ∧ c.isActive = true := by
  refine ⟨addCollaborator_snd s now lid E N link hlink, ?_⟩
  rw [getActiveCollaborators_eq,
    addCollaborator_stored_roster s now lid E N link hlink,
    Option.getD_some]
  obtain ⟨c, hcmem, hce, hcl, _⟩ := upsertCollaborator_exists now E N _
  refine ⟨refreshActive now c, List.mem_map_of_mem _ hcmem, hce, ?_⟩
  rw [refreshActive_isActive, hcl, Nat.sub_self]
  decide

theorem claim_C6_witness :
    getCollaborationLink demoExpiredStore "L2" = some expiredLink ∧
    expiredLink.expiresAt = some 100 ∧ (100 : Nat) < 1000000 ∧
    ((addCollaborator demoExpiredStore 1000000 "L2" "u@x.com" "U").2 =
      true ∧
     ∃ c ∈ getActiveCollaborators
        (addCollaborator demoExpiredStore 1000000 "L2" "u@x.com" "U").1
        1000000 expiredLink.spreadsheetId, c.email = "u@x.com" ∧
      c.isActive = true) :=
  ⟨rfl, rfl, by decide,
   claim_C6_expired_link_still_joins demoExpiredStore 1000000 100 "L2"
     "u@x.com" "U" expiredLink rfl rfl (by decide)⟩

/-- A store whose `D1` roster holds records for `u@x.com` and
`v@x.com`. -/
def demoRemoveStore : Store :=
  { links := fun _ => none,
    collaborators := fun k =>
      if k = "D1" then some
        [{ email := "u@x.com", name := "U", joinedAt := 0,
           lastActive := 10, isActive := true },
         { email := "v@x.com", name := "V", joinedAt := 0,
           lastActive := 25, isActive := true }]
      else none,
    userAccess := fun _ => none, ownerLinks := fun _ => none, events := [] }

/-- C7: after removing a user from a document, no roster read of that
document ever returns an entry with that email, whatever the prior state;
and removing the same user twice in a row yields the very same store as
removing once (removing an absent entry is a roster no-op). -/
theorem claim_C7_remove_then_absent_and_idempotent (s : Store)
    (now now' : Nat) (D E : String) :
    (∀ c ∈ getActiveCollaborators (removeCollaborator s now D E) now' D,
      ¬ c.email = E) ∧
    removeCollaborator (removeCollaborator s now D E) now D E =
      removeCollaborator s now D E :=
  ⟨fun c hc => removeCollaborator_no_email s now now' D E c hc,
   removeCollaborator_idem s now D E⟩

theorem claim_C7_witness :
    (⟨"v@x.com", "V", 0, 25, true⟩ : ActiveCollaborator) ∈
      getActiveCollaborators (removeCollaborator demoRemoveStore 40 "D1"
        "u@x.com") 41 "D1" ∧
    ¬ (⟨"v@x.com", "V", 0, 25, true⟩ : ActiveCollaborator).email =
      "u@x.com" ∧
    removeCollaborator (removeCollaborator demoRemoveStore 40 "D1"
        "u@x.com") 40 "D1" "u@x.com" =
      removeCollaborator demoRemoveStore 40 "D1" "u@x.com" :=
  ⟨by decide,
   (claim_C7_remove_then_absent_and_idempotent demoRemoveStore 40 41 "D1"
     "u@x.com").1 _ (by decide),
   (claim_C7_remove_then_absent_and_idempotent demoRemoveStore 40 41 "D1"
     "u@x.com").2⟩

/-- C8: the shareable URL is exactly `origin ++ "?collab=" ++ linkId`
with the fixed parameter name `collab` and the raw link id as value; for
a fragment-free origin carrying no query of its own and a link id free of
the characters that standard query escaping would rewrite (ampersand,
percent, plus, hash), parsing that URL returns exactly the link id, and a
URL with no query (hence no `collab` parameter) parses as absent. -/
theorem claim_C8_url_contract (origin linkId : String)
    (ho1 : '?' ∉ origin.toList) (ho2 : '#' ∉ origin.toList)
    (h1 : '&' ∉ linkId.toList) (h2 : '%' ∉ linkId.toList)
    (h3 : '+' ∉ linkId.toList) (h4 : '#' ∉ linkId.toList) :
    getCollaborationLinkUrl origin linkId = origin ++ "?collab=" ++ linkId ∧
    parseCollaborationLink (getCollaborationLinkUrl origin linkId) =
      some linkId ∧
    parseCollaborationLink origin = none :=
  ⟨rfl, parseCollaborationLink_roundTrip origin linkId ho1 h1 h2 h3,
   parseCollaborationLink_no_query origin ho1⟩

theorem claim_C8_witness :
    '?' ∉ "https://x".toList ∧ '#' ∉ "https://x".toList ∧
    '&' ∉ "abc123".toList ∧ '%' ∉ "abc123".toList ∧
    '+' ∉ "abc123".toList ∧ '#' ∉ "abc123".toList ∧
    (getCollaborationLinkUrl "https://x" "abc123" =
      "https://x" ++ "?collab=" ++ "abc123" ∧
     parseCollaborationLink (getCollaborationLinkUrl "https://x" "abc123") =
      some "abc123" ∧
     parseCollaborationLink "https://x" = none) :=
  ⟨by decide, by decide, by decide, by decide, by decide, by decide,
   claim_C8_url_contract "https://x" "abc123" (by decide) (by decide)
     (by decide) (by decide) (by decide) (by decide)⟩

/-- C9: a user owns a document exactly when some link id in their owner
index resolves to a link for that document; concretely, after user A
creates a link for document D and a different user B joins through it, A
owns D and B does not. -/
theorem claim_C9_owner_characterisation (s : Store) (D : String) :
    (∀ E, isSpreadsheetOwner s D E = true ↔
      ∃ lid ∈ getOwnerLinks s E, ∃ link,
        getCollaborationLink s lid = some link ∧ link.spreadsheetId = D) ∧
    (∀ now1 now2 : Nat, ∀ lid title A B nB : String,
      B ≠ A → lid ∉ getOwnerLinks s B → isSpreadsheetOwner s D B = false →
      isSpreadsheetOwner
        ((join ((createCollaborationLink s now1 lid D title A).1) now2 lid B
          nB).1) D A = true ∧
      isSpreadsheetOwner
        ((join ((createCollaborationLink s now1 lid D title A).1) now2 lid B
          nB).1) D B = false) := by
  refine ⟨fun E => isSpreadsheetOwner_iff s D E, ?_⟩
  intro now1 now2 lid title A B nB hBA hfresh hB
  set s1 := (createCollaborationLink s now1 lid D title A).1 with hs1
  have hl1 : getCollaborationLink s1 lid = some
      { linkId := lid, spreadsheetId := D, spreadsheetTitle := title,
        ownerEmail := A, createdAt := now1, expiresAt := none } := by
    unfold getCollaborationLink
    rw [hs1, createCollaborationLink_links]
    simp
  set s2 := (join s1 now2 lid B nB).1 with hs2
  have hs2' : s2 = (addCollaborator s1 now2 lid B nB).1 := by
    rw [hs2, join_of_some s1 now2 lid B nB _ hl1]
  have hlinks : s2.links = s1.links := by
    rw [hs2']
    exact addCollaborator_links s1 now2 lid B nB _ hl1
  have howner : s2.ownerLinks = s1.ownerLinks := by
    rw [hs2']
    exact addCollaborator_ownerLinks s1 now2 lid B nB _ hl1
  constructor
  · rw [isSpreadsheetOwner_iff]
    refine ⟨lid, ?_,
      { linkId := lid, spreadsheetId := D, spreadsheetTitle := title,
        ownerEmail := A, createdAt := now1, expiresAt := none }, ?_, rfl⟩
    · unfold getOwnerLinks
      rw [howner, hs1, createCollaborationLink_ownerLinks]
      simp
    · unfold getCollaborationLink
      rw [hlinks]
      exact hl1
  · have hnot : ¬ isSpreadsheetOwner s2 D B = true := by
      rw [isSpreadsheetOwner_iff]
      rintro ⟨l, hmem, link, hres, hid⟩
      have hmem' : l ∈ getOwnerLinks s B := by
        unfold getOwnerLinks at hmem ⊢
        rw [howner, hs1, createCollaborationLink_ownerLinks] at hmem
        simpa [hBA] using hmem
      have hne : l ≠ lid := fun h => hfresh (h ▸ hmem')
      have hres' : getCollaborationLink s l = some link := by
        unfold getCollaborationLink at hres ⊢
        rw [hlinks, hs1, createCollaborationLink_links] at hres
        simpa [hne] using hres
      have hown : isSpreadsheetOwner s D B = true :=
        (isSpreadsheetOwner_iff s D B).mpr ⟨l, hmem', link, hres', hid⟩
      rw [hB] at hown
      exact Bool.false_ne_true hown
    exact Bool.eq_false_iff.mpr hnot

theorem claim_C9_witness :
    ("b@x.com" : String) ≠ "a@x.com" ∧
    "L9" ∉ getOwnerLinks emptyStore "b@x.com" ∧
    isSpreadsheetOwner emptyStore "Budget2024" "b@x.com" = false ∧
    (isSpreadsheetOwner ((join ((createCollaborationLink emptyStore 1 "L9"
        "Budget2024" "Budget" "a@x.com").1) 2 "L9" "b@x.com" "Bea").1)
      "Budget2024" "a@x.com" = true ∧
     isSpreadsheetOwner ((join ((createCollaborationLink emptyStore 1 "L9"
        "Budget2024" "Budget" "a@x.com").1) 2 "L9" "b@x.com" "Bea").1)
      "Budget2024" "b@x.com" = false) :=
  ⟨by decide, by decide, rfl,
   (claim_C9_owner_characterisation emptyStore "Budget2024").2 1 2 "L9"
     "Budget" "a@x.com" "b@x.com" "Bea" (by decide) (by decide) rfl⟩

/-- C10: a successful join touches only the document's roster key and, if
the document is not already listed there, the joining user's own
collaboration-access key; every link record, every owner link index,
every other document's roster and every other user's access list are left
unchanged. -/
theorem claim_C10_join_frame (s : Store) (now : Nat) (lid E N : String)
    (link : CollaborationLink)
    (hlink : getCollaborationLink s lid = some link) :
    ((addCollaborator s now lid E N).1).links = s.links ∧
    ((addCollaborator s now lid E N).1).ownerLinks = s.ownerLinks ∧
    (∀ k, k ≠ link.spreadsheetId →
      ((addCollaborator s now lid E N).1).collaborators k =
        s.collaborators k) ∧
    (∀ k, k ≠ E →
      ((addCollaborator s now lid E N).1).userAccess k = s.userAccess k) ∧
    (link.spreadsheetId ∈ getUserCollaborations s E →
      ((addCollaborator s now lid E N).1).userAccess = s.userAccess) := by
  refine ⟨addCollaborator_links s now lid E N link hlink,
    addCollaborator_ownerLinks s now lid E N link hlink, ?_, ?_, ?_⟩
  · intro k hk
    rw [addCollaborator_collaborators_apply s now lid E N link hlink k,
      if_neg hk]
  · intro k hk
    by_cases hm : link.spreadsheetId ∈ getUserCollaborations s E
    · rw [addCollaborator_userAccess_of_mem s now lid E N link hlink hm]
    · rw [addCollaborator_userAccess_of_not_mem s now lid E N link hlink hm]
      exact if_neg hk
  · intro hm
    exact addCollaborator_userAccess_of_mem s now lid E N link hlink hm

theorem claim_C10_witness :
    getCollaborationLink demoStore "L1" = some demoLink ∧
    ((addCollaborator demoStore 5 "L1" "b@x.com" "Bob").1).links =
      demoStore.links ∧
    ((addCollaborator demoStore 5 "L1" "b@x.com" "Bob").1).ownerLinks =
      demoStore.ownerLinks ∧
    ("Other" : String) ≠ demoLink.spreadsheetId ∧
    ((addCollaborator demoStore 5 "L1" "b@x.com" "Bob").1).collaborators
      "Other" = demoStore.collaborators "Other" ∧
    ("c@x.com" : String) ≠ "b@x.com" ∧
    ((addCollaborator demoStore 5 "L1" "b@x.com" "Bob").1).userAccess
      "c@x.com" = demoStore.userAccess "c@x.com" :=
  ⟨rfl,
   (claim_C10_join_frame demoStore 5 "L1" "b@x.com" "Bob" demoLink rfl).1,
   (claim_C10_join_frame demoStore 5 "L1" "b@x.com" "Bob" demoLink
     rfl).2.1,
   by decide,
   (claim_C10_join_frame demoStore 5 "L1" "b@x.com" "Bob" demoLink
     rfl).2.2.1 "Other" (by decide),
   by decide,
   (claim_C10_join_frame demoStore 5 "L1" "b@x.com" "Bob" demoLink
     rfl).2.2.2.1 "c@x.com" (by decide)⟩
